import Mathlib

/-!
Verification of the FLUTE federated-learning launcher (`e2e_trainer.py`) and
the MIND dataset preprocessor (`experiments/fedrec/preprocess.py`).

The Python sources are shallowly embedded: Python dicts keyed by strings
become association lists, `datetime` timestamps become naturals (only their
order matters), optional command-line floats become `Option ℚ`, and the
rank-0 `try/except` block of `run_worker` becomes an explicit outcome
computation that tracks Python's local-variable binding semantics.
-/

namespace Flute

/-! ## Python dictionary primitives (string-keyed, insertion ordered) -/

/-- Lookup in an insertion-ordered string-keyed dictionary, modelled as an
association list: `d[k]` returning `none` on a missing key. -/
def alookup {β : Type} : List (String × β) → String → Option β
  | [], _ => none
  | (k0, v0) :: rest, k => if k0 = k then some v0 else alookup rest k

/-- Python dict assignment `d[k] = v`: overwrite the existing entry in place,
or append a new entry at the end (dicts preserve insertion order). -/
def dictSet {β : Type} : List (String × β) → String → β → List (String × β)
  | [], k, v => [(k, v)]
  | (k0, v0) :: rest, k, v =>
    if k0 = k then (k0, v) :: rest else (k0, v0) :: dictSet rest k v

/-- In-place update of an existing entry, as in `d[k] += 1` or
`d[k].append(x)`; a missing key is left untouched (the embedded code only
updates keys it has already inserted). -/
def dictUpdate {β : Type} : List (String × β) → String → (β → β) → List (String × β)
  | [], _, _ => []
  | (k0, v0) :: rest, k, f =>
    if k0 = k then (k0, f v0) :: rest else (k0, v0) :: dictUpdate rest k f

/-- The keys of a dictionary, in insertion order. -/
def keySet {β : Type} (d : List (String × β)) : List String := d.map Prod.fst

/-! ## `e2e_trainer.py`: command-line reconciliation (`_reconcile_args`) -/

/-- Python truthiness of an optional float argument (`argparse` default
`None`): `if args.x:` is false exactly for `None` and `0.0`. -/
def pyTruthy : Option ℚ → Bool
  | none => false
  | some v => v != 0

/-- The three DP-related command-line arguments of `e2e_trainer.py`
(`--dp_config_grad_dir_eps`, `--dp_config_grad_mag_eps`,
`--dp_config_weight_eps`), each `None` when not supplied. -/
structure CmdArgs where
  dp_config_grad_dir_eps : Option ℚ
  dp_config_grad_mag_eps : Option ℚ
  dp_config_weight_eps : Option ℚ
deriving DecidableEq

/-- The parts of the parsed YAML config that the launcher script reads or
writes: the `dp_config` dictionary, and the fields mutated later in
`__main__` and `run_worker` (pretrained-model path, data path, task labels,
RL path, the derived client count), plus a flag recording that the config
checkers ran. -/
structure Config where
  dp_config : List (String × ℚ)
  pretrained_model_path : Option String
  data_path : Option String
  server_task : Option String
  client_task : Option String
  rl_path : Option String
  num_clients : Option Nat
  defaults_applied : Bool
deriving DecidableEq

/-- `_reconcile_args` (e2e_trainer.py lines 186-196): for each of the three
DP command-line arguments, overwrite the corresponding `dp_config` key, but
only when the argument is truthy (`if args.dp_config_...:`). -/
def reconcile_args (args : CmdArgs) (cfg : Config) : Config :=
  let cfg :=
    if pyTruthy args.dp_config_grad_dir_eps then
      { cfg with dp_config :=
          dictSet cfg.dp_config "grad_dir_eps" (args.dp_config_grad_dir_eps.getD 0) }
    else cfg
  let cfg :=
    if pyTruthy args.dp_config_grad_mag_eps then
      { cfg with dp_config :=
          dictSet cfg.dp_config "grad_mag_eps" (args.dp_config_grad_mag_eps.getD 0) }
    else cfg
  let cfg :=
    if pyTruthy args.dp_config_weight_eps then
      { cfg with dp_config :=
          dictSet cfg.dp_config "weight_eps" (args.dp_config_weight_eps.getD 0) }
    else cfg
  cfg

/-- Modelled from the spec: `check_server_config` and `check_client_config`
are imported from `config_file_parser`, which is not under `src/`; they
validate and fill server/client defaults. The spec states the DP
configuration is "Immutable for the run; loaded once", so they are modelled
as recording that defaults were applied while leaving `dp_config` and every
other embedded field unchanged. -/
def check_configs (cfg : Config) : Config :=
  { cfg with defaults_applied := true }

/-- Path concatenation standing in for `os.path.join`. -/
def joinPath (a b : String) : String := a ++ "/" ++ b

/-- Ambient values of `__main__`: the resolved data path, the `-task`
argument, the output path, the experiment name, and the RL options read
from the config. -/
structure MainEnv where
  data_path : String
  task : Option String
  outputPath : String
  experiment_name : String
  wantRL : Bool
  rl_path_global : Bool
deriving DecidableEq

/-- The config mutations performed by `__main__` after loading the YAML file
(e2e_trainer.py lines 276-303): `_reconcile_args`, pretrained-model path
rewrite, `data_path`, the config checkers, task labels, and the RL path. -/
def mainConfigPipeline (args : CmdArgs) (env : MainEnv) (cfg : Config) : Config :=
  let cfg := reconcile_args args cfg
  let cfg :=
    match cfg.pretrained_model_path with
    | some p => { cfg with pretrained_model_path := some (joinPath env.data_path p) }
    | none => cfg
  let cfg := { cfg with data_path := some env.data_path }
  let cfg := check_configs cfg
  let cfg := { cfg with client_task := env.task, server_task := env.task }
  let cfg :=
    if env.wantRL then
      match cfg.rl_path with
      | some p =>
        let base := if env.rl_path_global then env.outputPath
                    else joinPath env.outputPath env.experiment_name
        { cfg with rl_path := some (joinPath base p) }
      | none => cfg
    else cfg
  cfg

/-- The single config write performed inside `run_worker` (line 125): the
derived client count is stored under `server_config.data_config.num_clients`. -/
def run_worker_set_num_clients (n : Nat) (cfg : Config) : Config :=
  { cfg with num_clients := some n }

/-! ## `e2e_trainer.py`: role dispatch in `run_worker` -/

/-- The two process roles spawned by `run_worker`. -/
inductive Role
  | server
  | worker
deriving DecidableEq

/-- `rank = local_rank if local_rank > -1 else federated.rank()`
(line 107); the MPI rank is a non-negative integer. -/
def computeRank (local_rank : Int) (mpiRank : Nat) : Int :=
  if local_rank > -1 then local_rank else (mpiRank : Int)

/-- The branch taken by `run_worker` (line 119): the Server on rank 0, a
Worker on every other rank. -/
def run_worker_role (rank : Int) : Role :=
  if rank = 0 then Role.server else Role.worker

/-- Number of Server (Coordinator) objects instantiated by `run_worker`. -/
def serversSpawned (rank : Int) : Nat :=
  match run_worker_role rank with
  | Role.server => 1
  | Role.worker => 0

/-- Number of Worker objects instantiated by `run_worker`. -/
def workersSpawned (rank : Int) : Nat :=
  match run_worker_role rank with
  | Role.server => 0
  | Role.worker => 1

/-! ## `e2e_trainer.py`: startup assertions in `__main__` -/

/-- The two `assert` statements of `__main__` (lines 278-279): the reserved
key `num_clients` must not appear in the server or client `data_config`. -/
def num_clients_assert (server_data_keys client_data_keys : List String) :
    Except String Unit :=
  if "num_clients" ∈ server_data_keys then
    Except.error "Remove num_clients from server data_config since this is a reserved key"
  else if "num_clients" ∈ client_data_keys then
    Except.error "Remove num_clients from client data_config since this is a reserved key"
  else Except.ok ()

/-- Startup order of `__main__`: the assertions run first; only if both pass
is `run_worker` reached, which instantiates the Server or a Worker. -/
def mainStartup (server_data_keys client_data_keys : List String) (rank : Int) :
    Except String Role :=
  match num_clients_assert server_data_keys client_data_keys with
  | Except.error e => Except.error e
  | Except.ok _ => Except.ok (run_worker_role rank)

/-! ## `e2e_trainer.py`: the rank-0 `try/except` block of `run_worker` -/

/-- The statements of the rank-0 `try` block (lines 120-163), in source
order: derive the client count from the training manifest, build the
dataloaders, build the server optimizer, load the pretrained model,
construct the server (`server = server_setup(...)`), then
`log_run_properties`. -/
inductive Stage
  | numClients
  | dataloaders
  | optimizer
  | loadModel
  | serverCtor
  | logProps
deriving DecidableEq

/-- The stages in execution order. -/
def stageList : List Stage :=
  [Stage.numClients, Stage.dataloaders, Stage.optimizer,
   Stage.loadModel, Stage.serverCtor, Stage.logProps]

/-- Given which stages would raise, the first one that actually raises. -/
def firstFailure (fails : Stage → Bool) : Option Stage :=
  stageList.find? fails

/-- Whether the local variable `server` is already bound when the given
stage raises: the assignment `server = server_setup(...)` completes only
once the constructor returns, so `server` is bound exactly for a failure in
`log_run_properties` (line 163). -/
def serverBound : Stage → Bool
  | Stage.logProps => true
  | _ => false

/-- Exceptions that can propagate out of the rank-0 branch: the original
exception of a stage, or the `UnboundLocalError`/`NameError` raised by the
handler itself when it evaluates `server.terminate_workers()` with `server`
unbound. -/
inductive PyExc
  | orig (s : Stage)
  | unboundLocal
deriving DecidableEq

/-- Observable outcome of the rank-0 branch: the exception propagating out
of `run_worker` (if any), whether `server.terminate_workers()` was actually
executed (broadcasting termination to the Workers), and whether
`server.run()` was reached. -/
structure CoordOutcome where
  exc : Option PyExc
  terminatedWorkers : Bool
  serverRan : Bool
deriving DecidableEq

/-- The rank-0 branch of `run_worker` (lines 119-171) with Python's
local-variable semantics. If no stage raises, `server.run()` is reached.
If a stage raises, the handler (lines 165-168) runs
`server.terminate_workers()` then `raise e`; when `server` is unbound the
call itself raises `UnboundLocalError`, so no termination is broadcast and
that error propagates instead of the original exception. -/
def coordinatorRun (fails : Stage → Bool) : CoordOutcome :=
  match firstFailure fails with
  | none => { exc := none, terminatedWorkers := false, serverRan := true }
  | some s =>
    if serverBound s then
      { exc := some (PyExc.orig s), terminatedWorkers := true, serverRan := false }
    else
      { exc := some PyExc.unboundLocal, terminatedWorkers := false, serverRan := false }

/-- Failure scenario: `Client.get_num_users(training_filename)` raises
(e.g. the training manifest file is missing). -/
def failAtNumClients : Stage → Bool := fun s => decide (s = Stage.numClients)

/-- Failure scenario: the server constructor itself raises. -/
def failAtServerCtor : Stage → Bool := fun s => decide (s = Stage.serverCtor)

/-- Failure scenario: `log_run_properties` raises, after `server` was
assigned. -/
def failAtLogProps : Stage → Bool := fun s => decide (s = Stage.logProps)

/-! ## `e2e_trainer.py`: coordinator/worker event traces -/

/-- Events observable across the run: deriving the client count from the
training manifest, broadcasting it, starting a round, and running the
worker loop. -/
inductive FlEvent
  | deriveNumClients
  | broadcastNumClients
  | roundStart (r : Nat)
  | workerRun
deriving DecidableEq

/-- Modelled from the spec: `server.run()` (in `core/server.py`, which is
not under `src/`) is stated to broadcast the derived client count to all
Workers "before round 0 begins", then run the rounds in order. -/
def serverRunEvents (rounds : Nat) : List FlEvent :=
  FlEvent.broadcastNumClients :: (List.range rounds).map FlEvent.roundStart

/-- The rank-0 trace of a successful run: `run_worker` derives the client
count (line 125) during construction, then calls `server.run()`. -/
def coordinatorEvents (rounds : Nat) : List FlEvent :=
  FlEvent.deriveNumClients :: serverRunEvents rounds

/-- The trace of a non-zero rank: `run_worker` only builds the model and a
`federated.Worker` and calls `worker.run()` (lines 173-183); it never reads
the training manifest to derive the client count. -/
def workerEvents : List FlEvent := [FlEvent.workerRun]

/-! ## `experiments/fedrec/preprocess.py` -/

/-- One row of `behaviors.tsv`, zipped with the header
`[ImpressionID, UserID, Time, History, Impressions]`; the parsed timestamp
is modelled as a natural number (only its order is used). -/
structure Row where
  impressionId : String
  userId : String
  time : Nat
  history : String
  impressions : String
deriving DecidableEq

/-- The per-user entry of `out_json['user_data']`. -/
structure UserData where
  in_pretraining : Bool
  x : List Row
deriving DecidableEq

/-- The mutable state of the preprocessing loop: the three components of
`out_json` (with `num_samples` still the intermediate dict) plus the rows
written to `behaviors_pretraining.tsv`. -/
structure PrepState where
  users : List String
  num_samples : List (String × Nat)
  user_data : List (String × UserData)
  pretraining_rows : List Row
deriving DecidableEq

/-- The `user_pretraining` set (lines 76-78): users having at least one row
with timestamp strictly before `split_time`; modelled as a list whose
membership is the set membership. -/
def user_pretraining (rows : List Row) (split_time : Nat) : List String :=
  (rows.filter (fun r => decide (r.time < split_time))).map Row.userId

/-- Whether a row belongs to user `u`'s training partition: it carries `u`'s
id and falls at or after the split time. -/
def belongsTo (split_time : Nat) (u : String) (r : Row) : Bool :=
  (r.userId == u) && ! (decide (r.time < split_time))

/-- The rows of the processed prefix that belong to user `u`. -/
def userRows (split_time : Nat) (u : String) (processed : List Row) : List Row :=
  processed.filter (belongsTo split_time u)

/-- The body of the main loop (lines 84-99) for one row: a row before the
split time is written to `behaviors_pretraining.tsv`; otherwise, if its
user is new, the user is appended to `users`, `num_samples[u]` is set to 0
and an empty `user_data` entry is created with the `in_pretraining` flag;
then the row is appended to the user's `x` and `num_samples[u]` is
incremented. -/
def processRow (split_time : Nat) (pre : List String) (s : PrepState) (row : Row) :
    PrepState :=
  if row.time < split_time then
    { s with pretraining_rows := s.pretraining_rows ++ [row] }
  else
    let u := row.userId
    let s1 :=
      if (alookup s.user_data u).isNone then
        { s with
          users := s.users ++ [u],
          num_samples := dictSet s.num_samples u 0,
          user_data := dictSet s.user_data u { in_pretraining := decide (u ∈ pre), x := [] } }
      else s
    { s1 with
      user_data := dictUpdate s1.user_data u (fun ud => { ud with x := ud.x ++ [row] }),
      num_samples := dictUpdate s1.num_samples u (fun n => n + 1) }

/-- The initial state: `out_json = {'users': [], 'num_samples': None,
'user_data': {}}`, `num_samples = {}`, and an empty pretraining file. -/
def prepInit : PrepState :=
  { users := [], num_samples := [], user_data := [], pretraining_rows := [] }

/-- The main loop over all rows of `behaviors.tsv`. -/
def prepLoop (split_time : Nat) (pre : List String) (rows : List Row) : PrepState :=
  rows.foldl (processRow split_time pre) prepInit

/-- The final `out_json['num_samples']` (line 100):
`[num_samples[u] for u in out_json['users']]`. -/
def numSamplesList (s : PrepState) : List Nat :=
  s.users.map (fun u => (alookup s.num_samples u).getD 0)

/-- Python `int()` applied to a non-integral ratio: truncation toward zero,
which is exactly `Int` division of numerator by denominator. -/
def pythonInt (q : ℚ) : Int := q.num / ((q.den : Int))

/-- Python list indexing `l[i]`: non-negative indices from the front,
negative indices from the back, `none` (IndexError) when out of range. -/
def pyGet {α : Type} (l : List α) (i : Int) : Option α :=
  if 0 ≤ i then l[i.toNat]?
  else if 0 ≤ i + l.length then l[(i + (l.length : Int)).toNat]?
  else none

/-- `split_time = list(sorted(timestamps))[int(len(timestamps) *
args.time_split)]` (line 74), with the timestamps collected in row order. -/
def computeSplitTime (rows : List Row) (time_split : ℚ) : Option Nat :=
  pyGet ((rows.map Row.time).insertionSort (fun a b => a ≤ b))
    (pythonInt ((rows.length : ℚ) * time_split))

/-- The whole preprocessor: compute the split time (IndexError for an empty
input propagates as `none`), build the pretraining set, run the main loop. -/
def preprocess (rows : List Row) (time_split : ℚ) : Option PrepState :=
  (computeSplitTime rows time_split).map
    (fun st => prepLoop st (user_pretraining rows st) rows)

/-- The loop invariant of the preprocessing loop over a processed prefix:
the `user_data` and `num_samples` keys are the `users` list, users are
unique, a user is listed exactly when it owns a post-split row, each
dictionary entry is determined by `userRows`, and the pretraining output is
the filter of the processed rows by the split time. -/
def PrepInv (split_time : Nat) (pre : List String) (processed : List Row)
    (s : PrepState) : Prop :=
  keySet s.user_data = s.users ∧
  keySet s.num_samples = s.users ∧
  s.users.Nodup ∧
  s.pretraining_rows = processed.filter (fun r => decide (r.time < split_time)) ∧
  (∀ u, u ∈ s.users ↔ userRows split_time u processed ≠ []) ∧
  (∀ u, alookup s.user_data u =
    if userRows split_time u processed = [] then none
    else some { in_pretraining := decide (u ∈ pre), x := userRows split_time u processed }) ∧
  (∀ u, alookup s.num_samples u =
    if userRows split_time u processed = [] then none
    else some (userRows split_time u processed).length)

/-! ## Concrete inputs used by the witnesses -/

/-- A concrete `behaviors.tsv` row (user U1, earliest timestamp). -/
def wr1 : Row := { impressionId := "1", userId := "U1", time := 0, history := "h1", impressions := "i1" }

/-- A concrete `behaviors.tsv` row (user U1, at the split time). -/
def wr2 : Row := { impressionId := "2", userId := "U1", time := 10, history := "h2", impressions := "i2" }

/-- A concrete `behaviors.tsv` row (user U2, latest timestamp). -/
def wr3 : Row := { impressionId := "3", userId := "U2", time := 20, history := "h3", impressions := "i3" }

/-- A concrete three-row `behaviors.tsv`. -/
def wRows : List Row := [wr1, wr2, wr3]

/-- The preprocessor state produced for `wRows` with `time_split = 1/3`
(the computed split time is 10). -/
def wOut : PrepState := prepLoop 10 (user_pretraining wRows 10) wRows

/-- A concrete config with all six documented `dp_config` keys. -/
def wConfig : Config :=
  { dp_config :=
      [("eps", 4), ("max_weight", 2), ("min_weight", 1),
       ("grad_dir_eps", 8), ("grad_mag_eps", 9), ("weight_eps", 7)],
    pretrained_model_path := some "model.pt",
    data_path := none,
    server_task := none,
    client_task := none,
    rl_path := some "rl",
    num_clients := none,
    defaults_applied := false }

/-- A concrete `MainEnv`. -/
def wEnv : MainEnv :=
  { data_path := "/data", task := some "fedrec", outputPath := "/out",
    experiment_name := "exp", wantRL := true, rl_path_global := true }

/-- A concrete command line supplying two of the three DP overrides. -/
def wArgs : CmdArgs :=
  { dp_config_grad_dir_eps := some 1, dp_config_grad_mag_eps := none,
    dp_config_weight_eps := some 3 }

end Flute

namespace Flute

/-! ## Dictionary lemmas -/

theorem alookup_dictSet_self {β : Type} (d : List (String × β)) (k : String) (v : β) :
    alookup (dictSet d k v) k = some v := by
  induction d with
  | nil => simp [dictSet, alookup]
  | cons p rest ih =>
    obtain ⟨k0, v0⟩ := p
    by_cases h : k0 = k
    · simp [dictSet, alookup, h]
    · simp [dictSet, alookup, h, ih]

theorem alookup_dictSet_ne {β : Type} (d : List (String × β)) (k0 k : String) (v : β)
    (h : k0 ≠ k) : alookup (dictSet d k0 v) k = alookup d k := by
  induction d with
  | nil => simp [dictSet, alookup, h]
  | cons p rest ih =>
    obtain ⟨k1, v1⟩ := p
    by_cases h1 : k1 = k0
    · subst h1
      simp [dictSet, alookup, h]
    · by_cases h2 : k1 = k <;> simp [dictSet, alookup, h1, h2, Ne.symm h, ih]

theorem alookup_dictUpdate_self {β : Type} (d : List (String × β)) (k : String) (f : β → β) :
    alookup (dictUpdate d k f) k = (alookup d k).map f := by
  induction d with
  | nil => simp [dictUpdate, alookup]
  | cons p rest ih =>
    obtain ⟨k0, v0⟩ := p
    by_cases h : k0 = k
    · simp [dictUpdate, alookup, h]
    · simp [dictUpdate, alookup, h, ih]

theorem alookup_dictUpdate_ne {β : Type} (d : List (String × β)) (k0 k : String) (f : β → β)
    (h : k0 ≠ k) : alookup (dictUpdate d k0 f) k = alookup d k := by
  induction d with
  | nil => simp [dictUpdate, alookup]
  | cons p rest ih =>
    obtain ⟨k1, v1⟩ := p
    by_cases h1 : k1 = k0
    · subst h1
      simp [dictUpdate, alookup, h]
    · by_cases h2 : k1 = k <;> simp [dictUpdate, alookup, h1, h2, Ne.symm h, ih]

theorem keySet_dictUpdate {β : Type} (d : List (String × β)) (k : String) (f : β → β) :
    keySet (dictUpdate d k f) = keySet d := by
  induction d with
  | nil => simp [dictUpdate]
  | cons p rest ih =>
    obtain ⟨k0, v0⟩ := p
    by_cases h : k0 = k <;> simp [dictUpdate, keySet, h] <;> simpa [keySet] using ih

theorem keySet_dictSet_absent {β : Type} (d : List (String × β)) (k : String) (v : β)
    (h : alookup d k = none) : keySet (dictSet d k v) = keySet d ++ [k] := by
  induction d with
  | nil => simp [dictSet, keySet]
  | cons p rest ih =>
    obtain ⟨k0, v0⟩ := p
    by_cases h0 : k0 = k
    · simp [alookup, h0] at h
    · simp [alookup, h0] at h
      simp [dictSet, keySet, h0]
      simpa [keySet] using ih h

theorem mem_keySet_of_mem {β : Type} {d : List (String × β)} {p : String × β}
    (hp : p ∈ d) : p.1 ∈ keySet d :=
  List.mem_map_of_mem Prod.fst hp

theorem alookup_eq_of_mem {β : Type} (d : List (String × β))
    (hnd : (keySet d).Nodup) {p : String × β} (hp : p ∈ d) :
    alookup d p.1 = some p.2 := by
  induction d with
  | nil => cases hp
  | cons q rest ih =>
    obtain ⟨k0, v0⟩ := q
    simp only [keySet, List.map_cons, List.nodup_cons] at hnd
    rcases List.mem_cons.mp hp with h | h
    · subst h
      simp [alookup]
    · have hk : k0 ≠ p.1 := by
        intro he
        exact hnd.1 (he ▸ mem_keySet_of_mem h)
      simp only [alookup, hk, if_neg hk]
      exact ih hnd.2 h

theorem alookup_isSome_iff_mem_keySet {β : Type} (d : List (String × β)) (k : String) :
    (alookup d k).isSome = true ↔ k ∈ keySet d := by
  induction d with
  | nil => simp [alookup, keySet]
  | cons p rest ih =>
    obtain ⟨k0, v0⟩ := p
    have hks : keySet ((k0, v0) :: rest) = k0 :: keySet rest := rfl
    by_cases h : k0 = k
    · subst h
      simp [alookup, hks]
    · rw [hks]
      simp only [alookup, if_neg h, List.mem_cons]
      rw [ih]
      constructor
      · exact Or.inr
      · rintro (he | hm)
        · exact absurd he.symm h
        · exact hm

/-! ## C2: role dispatch -/

/-- C2: for every process, `run_worker` instantiates the Server if and only
if the computed rank is 0, and exactly one Worker otherwise; every rank runs
exactly one of the two roles. -/
theorem rank_zero_coordinator_other_ranks_worker (local_rank : Int) (mpiRank : Nat) :
    (serversSpawned (computeRank local_rank mpiRank) = 1 ∧
        workersSpawned (computeRank local_rank mpiRank) = 0 ↔
      computeRank local_rank mpiRank = 0) ∧
    (serversSpawned (computeRank local_rank mpiRank) = 0 ∧
        workersSpawned (computeRank local_rank mpiRank) = 1 ↔
      computeRank local_rank mpiRank ≠ 0) ∧
    serversSpawned (computeRank local_rank mpiRank) +
      workersSpawned (computeRank local_rank mpiRank) = 1 := by
  by_cases h : computeRank local_rank mpiRank = 0 <;>
    simp [serversSpawned, workersSpawned, run_worker_role, h]

/-! ## C1: construction failure never reaches `terminate_workers` -/

/-- C1 (divergence witness): when Coordinator construction fails at the
very first step (deriving the client count, e.g. because the training
manifest is missing) or at the server constructor itself, the `except`
handler evaluates `server.terminate_workers()` with `server` unbound, so no
termination is broadcast, the server never runs, and an
`UnboundLocalError` propagates instead of the original exception. -/
theorem construction_failure_leaves_workers_unterminated :
    coordinatorRun failAtNumClients =
      { exc := some PyExc.unboundLocal, terminatedWorkers := false, serverRan := false } ∧
    coordinatorRun failAtServerCtor =
      { exc := some PyExc.unboundLocal, terminatedWorkers := false, serverRan := false } := by
  constructor <;> rfl

/-! ## C3: what propagates out of a failed construction -/

/-- C3 (counterexample): for an exception raised while computing the client
count, `run_worker` does not re-raise the same exception after terminating
the Workers: the propagated exception is the handler's own
`UnboundLocalError` and `terminate_workers` never ran. -/
theorem coordinator_reraise_counterexample :
    (coordinatorRun failAtNumClients).exc ≠ some (PyExc.orig Stage.numClients) ∧
    (coordinatorRun failAtNumClients).terminatedWorkers = false := by
  constructor <;> decide

/-- C3 (amended): whenever a stage of the rank-0 block raises, an exception
does propagate out of `run_worker` (so the process exits non-zero) and the
server never runs; but the propagated exception is the original one exactly
when the failure happened after `server` was assigned (in
`log_run_properties`) — otherwise the failed termination attempt raises
`UnboundLocalError`, which propagates instead. -/
theorem coordinator_failure_exits_nonzero (fails : Stage → Bool) (s : Stage)
    (h : firstFailure fails = some s) :
    (coordinatorRun fails).exc.isSome = true ∧
    (coordinatorRun fails).serverRan = false ∧
    ((coordinatorRun fails).exc = some (PyExc.orig s) ↔ serverBound s = true) := by
  unfold coordinatorRun
  rw [h]
  by_cases hb : serverBound s = true
  · simp [hb]
  · simp [hb]

/-- Witness for the amended C3 at a concrete input: a failure in
`log_run_properties` re-raises the original exception. -/
theorem coordinator_failure_exits_nonzero_witness :
    (coordinatorRun failAtLogProps).exc.isSome = true ∧
    (coordinatorRun failAtLogProps).serverRan = false ∧
    ((coordinatorRun failAtLogProps).exc = some (PyExc.orig Stage.logProps) ↔
      serverBound Stage.logProps = true) :=
  coordinator_failure_exits_nonzero failAtLogProps Stage.logProps (by decide)

/-! ## C4: the client count is derived once, before round 0 -/

/-- C4: the rank-0 trace derives the client count exactly once, and does so
before the broadcast of the count, which itself precedes every round start;
a Worker's trace never derives the client count from the manifest. -/
theorem num_clients_derived_once_before_round_zero (rounds : Nat) :
    (coordinatorEvents rounds).count FlEvent.deriveNumClients = 1 ∧
    coordinatorEvents rounds =
      [FlEvent.deriveNumClients, FlEvent.broadcastNumClients] ++
        (List.range rounds).map FlEvent.roundStart ∧
    FlEvent.deriveNumClients ∉ workerEvents := by
  refine ⟨?_, rfl, by decide⟩
  have h0 : FlEvent.deriveNumClients ∉ (List.range rounds).map FlEvent.roundStart := by
    simp
  simp [coordinatorEvents, serverRunEvents, List.count_cons, List.count_eq_zero.mpr h0]

end Flute

namespace Flute

/-! ## Lemmas about `_reconcile_args` and the config pipeline -/

theorem reconcile_args_dp_frame (args : CmdArgs) (c : Config) (k : String)
    (h1 : k ≠ "grad_dir_eps") (h2 : k ≠ "grad_mag_eps") (h3 : k ≠ "weight_eps") :
    alookup (reconcile_args args c).dp_config k = alookup c.dp_config k := by
  unfold reconcile_args
  dsimp only
  split_ifs <;>
    simp [alookup_dictSet_ne _ _ _ _ (Ne.symm h1), alookup_dictSet_ne _ _ _ _ (Ne.symm h2),
      alookup_dictSet_ne _ _ _ _ (Ne.symm h3)]

theorem reconcile_args_grad_dir_none (args : CmdArgs) (c : Config)
    (h : args.dp_config_grad_dir_eps = none) :
    alookup (reconcile_args args c).dp_config "grad_dir_eps" =
      alookup c.dp_config "grad_dir_eps" := by
  unfold reconcile_args
  dsimp only
  rw [h]
  split_ifs <;>
    first
      | contradiction
      | rfl
      | simp [alookup_dictSet_ne _ _ _ _ (by decide : ("grad_mag_eps" : String) ≠ "grad_dir_eps"),
          alookup_dictSet_ne _ _ _ _ (by decide : ("weight_eps" : String) ≠ "grad_dir_eps")]

theorem reconcile_args_grad_mag_none (args : CmdArgs) (c : Config)
    (h : args.dp_config_grad_mag_eps = none) :
    alookup (reconcile_args args c).dp_config "grad_mag_eps" =
      alookup c.dp_config "grad_mag_eps" := by
  unfold reconcile_args
  dsimp only
  rw [h]
  split_ifs <;>
    first
      | contradiction
      | rfl
      | simp [alookup_dictSet_ne _ _ _ _ (by decide : ("grad_dir_eps" : String) ≠ "grad_mag_eps"),
          alookup_dictSet_ne _ _ _ _ (by decide : ("weight_eps" : String) ≠ "grad_mag_eps")]

theorem reconcile_args_weight_none (args : CmdArgs) (c : Config)
    (h : args.dp_config_weight_eps = none) :
    alookup (reconcile_args args c).dp_config "weight_eps" =
      alookup c.dp_config "weight_eps" := by
  unfold reconcile_args
  dsimp only
  rw [h]
  split_ifs <;>
    first
      | contradiction
      | rfl
      | simp [alookup_dictSet_ne _ _ _ _ (by decide : ("grad_dir_eps" : String) ≠ "weight_eps"),
          alookup_dictSet_ne _ _ _ _ (by decide : ("grad_mag_eps" : String) ≠ "weight_eps")]

theorem reconcile_args_other_fields (args : CmdArgs) (c : Config) :
    (reconcile_args args c).pretrained_model_path = c.pretrained_model_path ∧
    (reconcile_args args c).data_path = c.data_path ∧
    (reconcile_args args c).server_task = c.server_task ∧
    (reconcile_args args c).client_task = c.client_task ∧
    (reconcile_args args c).rl_path = c.rl_path ∧
    (reconcile_args args c).num_clients = c.num_clients ∧
    (reconcile_args args c).defaults_applied = c.defaults_applied := by
  unfold reconcile_args
  dsimp only
  split_ifs <;> exact ⟨rfl, rfl, rfl, rfl, rfl, rfl, rfl⟩

theorem mainConfigPipeline_dp_config (args : CmdArgs) (env : MainEnv) (c : Config) :
    (mainConfigPipeline args env c).dp_config = (reconcile_args args c).dp_config := by
  unfold mainConfigPipeline check_configs
  cases hp : (reconcile_args args c).pretrained_model_path <;>
    cases hw : env.wantRL <;>
      cases hr : (reconcile_args args c).rl_path <;>
        simp [hp, hw, hr]

/-! ## C5: the DP configuration is fixed once at startup -/

/-- C5: `_reconcile_args` changes at most the keys `grad_dir_eps`,
`grad_mag_eps` and `weight_eps` of `dp_config` (each unchanged when the
corresponding argument is absent), leaves every other `dp_config` key and
every other part of the config untouched, and no later step of `__main__`
or `run_worker` writes to `dp_config` again. -/
theorem dp_config_fixed_once (args : CmdArgs) (env : MainEnv) (c : Config) (n : Nat) :
    (∀ k, k ≠ "grad_dir_eps" → k ≠ "grad_mag_eps" → k ≠ "weight_eps" →
      alookup (reconcile_args args c).dp_config k = alookup c.dp_config k) ∧
    (args.dp_config_grad_dir_eps = none →
      alookup (reconcile_args args c).dp_config "grad_dir_eps" =
        alookup c.dp_config "grad_dir_eps") ∧
    (args.dp_config_grad_mag_eps = none →
      alookup (reconcile_args args c).dp_config "grad_mag_eps" =
        alookup c.dp_config "grad_mag_eps") ∧
    (args.dp_config_weight_eps = none →
      alookup (reconcile_args args c).dp_config "weight_eps" =
        alookup c.dp_config "weight_eps") ∧
    (reconcile_args args c).pretrained_model_path = c.pretrained_model_path ∧
    (reconcile_args args c).data_path = c.data_path ∧
    (reconcile_args args c).server_task = c.server_task ∧
    (reconcile_args args c).client_task = c.client_task ∧
    (reconcile_args args c).rl_path = c.rl_path ∧
    (reconcile_args args c).num_clients = c.num_clients ∧
    (mainConfigPipeline args env c).dp_config = (reconcile_args args c).dp_config ∧
    (run_worker_set_num_clients n (mainConfigPipeline args env c)).dp_config =
      (reconcile_args args c).dp_config := by
  obtain ⟨f1, f2, f3, f4, f5, f6, _⟩ := reconcile_args_other_fields args c
  refine ⟨reconcile_args_dp_frame args c, reconcile_args_grad_dir_none args c,
    reconcile_args_grad_mag_none args c, reconcile_args_weight_none args c,
    f1, f2, f3, f4, f5, f6, mainConfigPipeline_dp_config args env c, ?_⟩
  show (mainConfigPipeline args env c).dp_config = (reconcile_args args c).dp_config
  exact mainConfigPipeline_dp_config args env c

/-- Witness for C5 at concrete inputs: the `eps` key and the
pretrained-model path survive `_reconcile_args`, and the full pipeline
leaves `dp_config` exactly as `_reconcile_args` produced it. -/
theorem dp_config_fixed_once_witness :
    alookup (reconcile_args wArgs wConfig).dp_config "eps" =
      alookup wConfig.dp_config "eps" ∧
    (run_worker_set_num_clients 7 (mainConfigPipeline wArgs wEnv wConfig)).dp_config =
      (reconcile_args wArgs wConfig).dp_config :=
  ⟨(dp_config_fixed_once wArgs wEnv wConfig 7).1 "eps" (by decide) (by decide) (by decide),
   (dp_config_fixed_once wArgs wEnv wConfig 7).2.2.2.2.2.2.2.2.2.2.2⟩

/-! ## C9: a 0.0 override is silently ignored -/

/-- C9: supplying `0.0` (or nothing) for any of the three DP overrides
leaves `dp_config` untouched, while a non-zero value replaces the
corresponding key. -/
theorem zero_dp_override_ignored (c : Config) (v : ℚ) (hv : v ≠ 0) :
    (reconcile_args ⟨some 0, some 0, some 0⟩ c).dp_config = c.dp_config ∧
    (reconcile_args ⟨none, none, none⟩ c).dp_config = c.dp_config ∧
    alookup (reconcile_args ⟨some v, none, none⟩ c).dp_config "grad_dir_eps" = some v ∧
    alookup (reconcile_args ⟨none, some v, none⟩ c).dp_config "grad_mag_eps" = some v ∧
    alookup (reconcile_args ⟨none, none, some v⟩ c).dp_config "weight_eps" = some v := by
  refine ⟨?_, ?_, ?_, ?_, ?_⟩ <;>
    simp [reconcile_args, pyTruthy, hv, alookup_dictSet_self]

/-- Witness for C9 at a concrete input. -/
theorem zero_dp_override_ignored_witness :
    (reconcile_args ⟨some 0, some 0, some 0⟩ wConfig).dp_config = wConfig.dp_config ∧
    (reconcile_args ⟨none, none, none⟩ wConfig).dp_config = wConfig.dp_config ∧
    alookup (reconcile_args ⟨some 1, none, none⟩ wConfig).dp_config "grad_dir_eps" = some 1 ∧
    alookup (reconcile_args ⟨none, some 1, none⟩ wConfig).dp_config "grad_mag_eps" = some 1 ∧
    alookup (reconcile_args ⟨none, none, some 1⟩ wConfig).dp_config "weight_eps" = some 1 :=
  zero_dp_override_ignored wConfig 1 one_ne_zero

/-! ## C8: the reserved `num_clients` key aborts startup -/

/-- C8: if `num_clients` appears in the server or client `data_config`, the
startup assertions raise before `run_worker` runs, so no Server or Worker
object is ever created. -/
theorem num_clients_reserved_key_aborts_startup (sk ck : List String) (rank : Int)
    (h : "num_clients" ∈ sk ∨ "num_clients" ∈ ck) :
    ∃ msg, mainStartup sk ck rank = Except.error msg ∧
      ∀ role, mainStartup sk ck rank ≠ Except.ok role := by
  unfold mainStartup num_clients_assert
  rcases h with h | h
  · simp [h]
  · by_cases hs : "num_clients" ∈ sk <;> simp [hs, h]

/-- Witness for C8 at a concrete input. -/
theorem num_clients_reserved_key_aborts_startup_witness :
    ∃ msg, mainStartup ["train", "num_clients"] ["train"] 0 = Except.error msg ∧
      ∀ role, mainStartup ["train", "num_clients"] ["train"] 0 ≠ Except.ok role :=
  num_clients_reserved_key_aborts_startup ["train", "num_clients"] ["train"] 0
    (Or.inl (by decide))

end Flute

namespace Flute

/-! ## Preprocessor loop invariant -/

theorem userRows_append (st : Nat) (u : String) (l : List Row) (r : Row) :
    userRows st u (l ++ [r]) =
      userRows st u l ++ if belongsTo st u r then [r] else [] := by
  by_cases h : belongsTo st u r <;> simp [userRows, List.filter_append, h]

theorem prepInv_init (st : Nat) (pre : List String) : PrepInv st pre [] prepInit := by
  refine ⟨rfl, rfl, List.nodup_nil, rfl, ?_, ?_, ?_⟩ <;>
    intro u <;> simp [prepInit, alookup, userRows, keySet]

theorem prepInv_step (st : Nat) (pre : List String) (processed : List Row) (s : PrepState)
    (hInv : PrepInv st pre processed s) (row : Row) :
    PrepInv st pre (processed ++ [row]) (processRow st pre s row) := by
  obtain ⟨h1, h2, h3, h4, h5, h6, h7⟩ := hInv
  by_cases ht : row.time < st
  · -- the row goes to behaviors_pretraining.tsv; nothing else changes
    have hb : ∀ u, belongsTo st u row = false := fun u => by simp [belongsTo, ht]
    have hur : ∀ u, userRows st u (processed ++ [row]) = userRows st u processed := by
      intro u
      rw [userRows_append, hb u]
      simp
    have hs : processRow st pre s row =
        { s with pretraining_rows := s.pretraining_rows ++ [row] } := by
      simp [processRow, ht]
    rw [hs]
    refine ⟨h1, h2, h3, ?_, ?_, ?_, ?_⟩
    · show s.pretraining_rows ++ [row] = _
      rw [h4]
      simp [List.filter_append, ht]
    · intro u
      rw [hur u]
      exact h5 u
    · intro u
      rw [hur u]
      exact h6 u
    · intro u
      rw [hur u]
      exact h7 u
  · -- the row is appended to its own user's partition
    have hbu : belongsTo st row.userId row = true := by simp [belongsTo, ht]
    have hbne : ∀ u, u ≠ row.userId → belongsTo st u row = false := by
      intro u hu
      simp [belongsTo, Ne.symm hu]
    have hur_self : userRows st row.userId (processed ++ [row]) =
        userRows st row.userId processed ++ [row] := by
      rw [userRows_append, hbu]
      simp
    have hur_ne : ∀ u, u ≠ row.userId →
        userRows st u (processed ++ [row]) = userRows st u processed := by
      intro u hu
      rw [userRows_append, hbne u hu]
      simp
    have hfilter : (processed ++ [row]).filter (fun r => decide (r.time < st)) =
        processed.filter (fun r => decide (r.time < st)) := by
      simp [List.filter_append, ht]
    by_cases hnew : (alookup s.user_data row.userId).isNone
    · -- first row of a new user
      have hdnone : alookup s.user_data row.userId = none :=
        Option.isNone_iff_eq_none.mp hnew
      have hempty : userRows st row.userId processed = [] := by
        by_contra hne
        rw [h6 row.userId, if_neg hne] at hdnone
        cases hdnone
      have hnsnone : alookup s.num_samples row.userId = none := by
        rw [h7 row.userId, if_pos hempty]
      have hnotmem : row.userId ∉ s.users := by
        rw [h5 row.userId]
        simp [hempty]
      have hs : processRow st pre s row =
          { users := s.users ++ [row.userId],
            num_samples :=
              dictUpdate (dictSet s.num_samples row.userId 0) row.userId (fun n => n + 1),
            user_data :=
              dictUpdate (dictSet s.user_data row.userId
                  { in_pretraining := decide (row.userId ∈ pre), x := [] }) row.userId
                (fun ud => { ud with x := ud.x ++ [row] }),
            pretraining_rows := s.pretraining_rows } := by
        simp [processRow, ht, hdnone]
      rw [hs]
      refine ⟨?_, ?_, ?_, ?_, ?_, ?_, ?_⟩
      · show keySet (dictUpdate (dictSet s.user_data _ _) _ _) = s.users ++ [row.userId]
        rw [keySet_dictUpdate, keySet_dictSet_absent _ _ _ hdnone, h1]
      · show keySet (dictUpdate (dictSet s.num_samples _ _) _ _) = s.users ++ [row.userId]
        rw [keySet_dictUpdate, keySet_dictSet_absent _ _ _ hnsnone, h2]
      · show (s.users ++ [row.userId]).Nodup
        refine List.Nodup.append h3 (List.nodup_singleton _) ?_
        intro a ha hb2
        rw [List.mem_singleton] at hb2
        subst hb2
        exact hnotmem ha
      · show s.pretraining_rows = _
        rw [hfilter]
        exact h4
      · intro u
        by_cases hu : u = row.userId
        · subst hu
          simp [hur_self]
        · rw [hur_ne u hu]
          simp [List.mem_append, hu, h5 u]
      · intro u
        by_cases hu : u = row.userId
        · subst hu
          rw [alookup_dictUpdate_self, alookup_dictSet_self, hur_self, hempty]
          simp
        · rw [alookup_dictUpdate_ne _ _ _ _ (Ne.symm hu),
            alookup_dictSet_ne _ _ _ _ (Ne.symm hu), hur_ne u hu]
          exact h6 u
      · intro u
        by_cases hu : u = row.userId
        · subst hu
          rw [alookup_dictUpdate_self, alookup_dictSet_self, hur_self, hempty]
          simp
        · rw [alookup_dictUpdate_ne _ _ _ _ (Ne.symm hu),
            alookup_dictSet_ne _ _ _ _ (Ne.symm hu), hur_ne u hu]
          exact h7 u
    · -- the user already has an entry
      have hne : userRows st row.userId processed ≠ [] := by
        intro hempty
        rw [h6 row.userId, if_pos hempty] at hnew
        simp at hnew
      have hdata : alookup s.user_data row.userId =
          some { in_pretraining := decide (row.userId ∈ pre),
                 x := userRows st row.userId processed } := by
        rw [h6 row.userId, if_neg hne]
      have hns : alookup s.num_samples row.userId =
          some (userRows st row.userId processed).length := by
        rw [h7 row.userId, if_neg hne]
      have hmem : row.userId ∈ s.users := (h5 row.userId).mpr hne
      have hs : processRow st pre s row =
          { users := s.users,
            num_samples := dictUpdate s.num_samples row.userId (fun n => n + 1),
            user_data :=
              dictUpdate s.user_data row.userId
                (fun ud => { ud with x := ud.x ++ [row] }),
            pretraining_rows := s.pretraining_rows } := by
        simp [processRow, ht, hdata]
      rw [hs]
      refine ⟨?_, ?_, h3, ?_, ?_, ?_, ?_⟩
      · show keySet (dictUpdate s.user_data _ _) = s.users
        rw [keySet_dictUpdate, h1]
      · show keySet (dictUpdate s.num_samples _ _) = s.users
        rw [keySet_dictUpdate, h2]
      · show s.pretraining_rows = _
        rw [hfilter]
        exact h4
      · intro u
        by_cases hu : u = row.userId
        · subst hu
          simp [hmem, hur_self]
        · rw [hur_ne u hu]
          exact h5 u
      · intro u
        by_cases hu : u = row.userId
        · subst hu
          rw [alookup_dictUpdate_self, hdata, hur_self]
          simp
        · rw [alookup_dictUpdate_ne _ _ _ _ (Ne.symm hu), hur_ne u hu]
          exact h6 u
      · intro u
        by_cases hu : u = row.userId
        · subst hu
          rw [alookup_dictUpdate_self, hns, hur_self]
          simp
        · rw [alookup_dictUpdate_ne _ _ _ _ (Ne.symm hu), hur_ne u hu]
          exact h7 u

theorem prepInv_foldl (st : Nat) (pre : List String) :
    ∀ (rows processed : List Row) (s : PrepState), PrepInv st pre processed s →
      PrepInv st pre (processed ++ rows) (rows.foldl (processRow st pre) s) := by
  intro rows
  induction rows with
  | nil =>
    intro processed s h
    simpa using h
  | cons r rest ih =>
    intro processed s h
    have h2 := ih (processed ++ [r]) (processRow st pre s r) (prepInv_step st pre processed s h r)
    simpa [List.append_assoc] using h2

theorem prepLoop_inv (st : Nat) (pre : List String) (rows : List Row) :
    PrepInv st pre rows (prepLoop st pre rows) := by
  have h := prepInv_foldl st pre rows [] prepInit (prepInv_init st pre)
  simpa [prepLoop] using h

end Flute

namespace Flute

/-! ## Destructuring a successful preprocessor run -/

theorem preprocess_eq_some (rows : List Row) (ts : ℚ) (out : PrepState)
    (h : preprocess rows ts = some out) :
    ∃ st, computeSplitTime rows ts = some st ∧
      out = prepLoop st (user_pretraining rows st) rows := by
  unfold preprocess at h
  cases hc : computeSplitTime rows ts with
  | none =>
    rw [hc] at h
    cases h
  | some st =>
    rw [hc] at h
    simp only [Option.map_some'] at h
    exact ⟨st, rfl, (Option.some.inj h).symm⟩

theorem user_data_entry_eq (st : Nat) (pre : List String) (rows : List Row)
    {p : String × UserData} (hp : p ∈ (prepLoop st pre rows).user_data) :
    p.2 = { in_pretraining := decide (p.1 ∈ pre), x := userRows st p.1 rows } ∧
      userRows st p.1 rows ≠ [] := by
  obtain ⟨h1, _, h3, _, _, h6, _⟩ := prepLoop_inv st pre rows
  have hk : (keySet (prepLoop st pre rows).user_data).Nodup := by
    rw [h1]
    exact h3
  have hl := alookup_eq_of_mem _ hk hp
  rw [h6 p.1] at hl
  by_cases hc : userRows st p.1 rows = []
  · rw [if_pos hc] at hl
    cases hl
  · rw [if_neg hc] at hl
    exact ⟨(Option.some.inj hl).symm, hc⟩

/-! ## Evaluating the preprocessor on the concrete input -/

theorem computeSplitTime_wRows : computeSplitTime wRows (1/3) = some 10 := by
  have h : ((wRows.length : ℚ) * (1/3)) = 1 := by norm_num [wRows, wr1, wr2, wr3]
  unfold computeSplitTime
  rw [h]
  rfl

theorem preprocess_wRows_eq : preprocess wRows (1/3) = some wOut := by
  unfold preprocess
  rw [computeSplitTime_wRows]
  rfl

/-! ## C6: the ClientRecord contract of the manifest -/

/-- C6: the manifest produced by the preprocessor satisfies the
ClientRecord contract: each user id occurs exactly once in `users`,
`num_samples` has the same length as `users`, and the i-th sample count is
a positive integer equal to the number of records in the i-th user's `x`
list. -/
theorem manifest_client_record_contract (rows : List Row) (ts : ℚ) (out : PrepState)
    (h : preprocess rows ts = some out) :
    out.users.Nodup ∧
    (numSamplesList out).length = out.users.length ∧
    ∀ i, (hi : i < out.users.length) →
      ∃ ud, alookup out.user_data out.users[i] = some ud ∧
        (numSamplesList out)[i]? = some ud.x.length ∧
        0 < ud.x.length := by
  obtain ⟨st, hst, hout⟩ := preprocess_eq_some rows ts out h
  subst hout
  obtain ⟨h1, h2, h3, h4, h5, h6, h7⟩ := prepLoop_inv st (user_pretraining rows st) rows
  refine ⟨h3, by simp [numSamplesList], ?_⟩
  intro i hi
  have humem : (prepLoop st (user_pretraining rows st) rows).users[i] ∈
      (prepLoop st (user_pretraining rows st) rows).users := List.getElem_mem hi
  have hne := (h5 _).mp humem
  refine ⟨_, by rw [h6, if_neg hne], ?_, ?_⟩
  · rw [numSamplesList, List.getElem?_map, List.getElem?_eq_getElem hi]
    simp [h7, if_neg hne]
  · exact List.length_pos.mpr hne

/-- Witness for C6 on the concrete three-row input. -/
theorem manifest_client_record_contract_witness :
    wOut.users.Nodup ∧
    (numSamplesList wOut).length = wOut.users.length ∧
    (∃ ud, alookup wOut.user_data "U1" = some ud ∧
      (numSamplesList wOut)[0]? = some ud.x.length ∧ 0 < ud.x.length) := by
  have h := manifest_client_record_contract wRows (1/3) wOut preprocess_wRows_eq
  exact ⟨h.1, h.2.1, h.2.2 0 (by decide)⟩

end Flute

namespace Flute

/-! ## C7: the preprocessor partitions the rows without overlap or loss -/

/-- C7: every row strictly before the split time goes to
`behaviors_pretraining.tsv` and to no user's partition; every other row
goes to exactly the partition of its own `UserID` — it is absent from the
pretraining output and from every other user's `x` list. -/
theorem preprocess_partition (rows : List Row) (ts : ℚ) (out : PrepState) (st : Nat)
    (h : preprocess rows ts = some out) (hst : computeSplitTime rows ts = some st) :
    (∀ r, r ∈ rows → r.time < st →
      r ∈ out.pretraining_rows ∧ ∀ p, p ∈ out.user_data → r ∉ p.2.x) ∧
    (∀ r, r ∈ rows → ¬ r.time < st →
      r ∉ out.pretraining_rows ∧
      (∃ ud, alookup out.user_data r.userId = some ud ∧ r ∈ ud.x) ∧
      (∀ p, p ∈ out.user_data → r ∈ p.2.x → p.1 = r.userId)) := by
  obtain ⟨st2, hst2, hout⟩ := preprocess_eq_some rows ts out h
  rw [hst] at hst2
  have hsteq : st = st2 := Option.some.inj hst2
  subst hsteq
  subst hout
  obtain ⟨h1, h2, h3, h4, h5, h6, h7⟩ := prepLoop_inv st (user_pretraining rows st) rows
  constructor
  · intro r hr hrt
    constructor
    · rw [h4]
      exact List.mem_filter.mpr ⟨hr, by simp [hrt]⟩
    · intro p hp hx
      obtain ⟨hpeq, _⟩ := user_data_entry_eq st (user_pretraining rows st) rows hp
      rw [hpeq] at hx
      simp only [userRows] at hx
      have hb := (List.mem_filter.mp hx).2
      simp [belongsTo, hrt] at hb
  · intro r hr hrt
    refine ⟨?_, ?_, ?_⟩
    · rw [h4]
      intro hmem
      have hb := (List.mem_filter.mp hmem).2
      simp [hrt] at hb
    · have hrm : r ∈ userRows st r.userId rows := by
        simp only [userRows]
        exact List.mem_filter.mpr ⟨hr, by simp [belongsTo, hrt]⟩
      have hne : userRows st r.userId rows ≠ [] := by
        intro he
        rw [he] at hrm
        cases hrm
      exact ⟨_, by rw [h6 r.userId, if_neg hne], hrm⟩
    · intro p hp hx
      obtain ⟨hpeq, _⟩ := user_data_entry_eq st (user_pretraining rows st) rows hp
      rw [hpeq] at hx
      simp only [userRows] at hx
      have hb := (List.mem_filter.mp hx).2
      simp only [belongsTo, Bool.and_eq_true, beq_iff_eq] at hb
      exact hb.1.symm

/-- Witness for C7 on the concrete three-row input: the pre-split row
`wr1` lands only in the pretraining output, and the post-split row `wr2`
lands exactly in user U1's partition. -/
theorem preprocess_partition_witness :
    (wr1 ∈ wOut.pretraining_rows ∧ ∀ p, p ∈ wOut.user_data → wr1 ∉ p.2.x) ∧
    (wr2 ∉ wOut.pretraining_rows ∧
      (∃ ud, alookup wOut.user_data wr2.userId = some ud ∧ wr2 ∈ ud.x) ∧
      (∀ p, p ∈ wOut.user_data → wr2 ∈ p.2.x → p.1 = wr2.userId)) := by
  have h := preprocess_partition wRows (1/3) wOut 10 preprocess_wRows_eq computeSplitTime_wRows
  exact ⟨h.1 wr1 (by decide) (by decide), h.2 wr2 (by decide) (by decide)⟩

/-! ## C10: the `in_pretraining` flag -/

/-- C10: for every user present in `user_data`, the `in_pretraining` flag
is true exactly when that user has at least one row of `behaviors.tsv`
strictly before the computed split time. -/
theorem in_pretraining_flag_iff (rows : List Row) (ts : ℚ) (out : PrepState) (st : Nat)
    (h : preprocess rows ts = some out) (hst : computeSplitTime rows ts = some st) :
    ∀ u ud, alookup out.user_data u = some ud →
      (ud.in_pretraining = true ↔ ∃ r, r ∈ rows ∧ r.userId = u ∧ r.time < st) := by
  obtain ⟨st2, hst2, hout⟩ := preprocess_eq_some rows ts out h
  rw [hst] at hst2
  have hsteq : st = st2 := Option.some.inj hst2
  subst hsteq
  subst hout
  obtain ⟨h1, h2, h3, h4, h5, h6, h7⟩ := prepLoop_inv st (user_pretraining rows st) rows
  intro u ud hud
  rw [h6 u] at hud
  by_cases hc : userRows st u rows = []
  · rw [if_pos hc] at hud
    cases hud
  · rw [if_neg hc] at hud
    rw [(Option.some.inj hud).symm]
    show decide (u ∈ user_pretraining rows st) = true ↔ _
    rw [decide_eq_true_eq]
    unfold user_pretraining
    constructor
    · intro hm
      obtain ⟨r, hr, hru⟩ := List.mem_map.mp hm
      obtain ⟨hrrows, hrt⟩ := List.mem_filter.mp hr
      exact ⟨r, hrrows, hru, by simpa using hrt⟩
    · rintro ⟨r, hr, hru, hrt⟩
      exact List.mem_map.mpr ⟨r, List.mem_filter.mpr ⟨hr, by simp [hrt]⟩, hru⟩

/-- Witness for C10 at a concrete input: user U1 is flagged as in
pretraining (its row `wr1` precedes the split time 10), and the flag's
characterization holds. -/
theorem in_pretraining_flag_iff_witness :
    ({ in_pretraining := true, x := [wr2] } : UserData).in_pretraining = true ↔
      ∃ r, r ∈ wRows ∧ r.userId = "U1" ∧ r.time < 10 :=
  in_pretraining_flag_iff wRows (1/3) wOut 10 preprocess_wRows_eq computeSplitTime_wRows
    "U1" { in_pretraining := true, x := [wr2] } (by decide)

end Flute
